import Mathlib

/-!
Shallow embedding of `mlir/lib/Target/LLVMIR/Dialect/LLVMIR/LLVMToLLVMIRTranslation.cpp`
(the MLIR LLVM-dialect to LLVM IR lowering engine) and proofs of its
specification properties.

The embedding follows the source file: pure enum translators are Lean
functions over inductive enumerations; the stateful loop-metadata cache is
explicit state passing over an `MDState` record; fallible lowering steps
return a `LogicalResult` (or `Except` for error-carrying paths).
-/

set_option autoImplicit false

namespace LLVMToLLVMIR

/-! ## Source-side (MLIR LLVM dialect) enumerations -/

/-- MLIR LLVM-dialect integer comparison predicate (10 variants). -/
inductive ICmpPredicate
  | eq | ne | slt | sle | sgt | sge | ult | ule | ugt | uge
deriving DecidableEq, Repr

/-- MLIR LLVM-dialect floating comparison predicate, exactly the cases of the
source `switch` (16 variants, `_false` through `_true`). -/
inductive FCmpPredicate
  | _false | oeq | ogt | oge | olt | ole | one | ord
  | ueq | ugt | uge | ult | ule | une | uno | _true
deriving DecidableEq, Repr

/-- MLIR LLVM-dialect atomic read-modify-write operator (13 variants). -/
inductive AtomicBinOp
  | xchg | add | sub | _and | nand | _or | _xor
  | max | min | umax | umin | fadd | fsub
deriving DecidableEq, Repr

/-- MLIR LLVM-dialect atomic ordering (7 variants). -/
inductive AtomicOrdering
  | not_atomic | unordered | monotonic | acquire | release | acq_rel | seq_cst
deriving DecidableEq, Repr

/-! ## Target-side (LLVM IR) enumerations -/

/-- `llvm::CmpInst::Predicate`: the target comparison predicate enumeration
(float and integer predicates in a single enum). -/
inductive CmpInstPredicate
  | FCMP_FALSE | FCMP_OEQ | FCMP_OGT | FCMP_OGE | FCMP_OLT | FCMP_OLE
  | FCMP_ONE | FCMP_ORD | FCMP_UNO | FCMP_UEQ | FCMP_UGT | FCMP_UGE
  | FCMP_ULT | FCMP_ULE | FCMP_UNE | FCMP_TRUE
  | ICMP_EQ | ICMP_NE | ICMP_UGT | ICMP_UGE | ICMP_ULT | ICMP_ULE
  | ICMP_SGT | ICMP_SGE | ICMP_SLT | ICMP_SLE
deriving DecidableEq, Repr

/-- `llvm::AtomicRMWInst::BinOp`: target atomic read-modify-write operator. -/
inductive AtomicRMWBinOp
  | Xchg | Add | Sub | And | Nand | Or | Xor
  | Max | Min | UMax | UMin | FAdd | FSub
deriving DecidableEq, Repr

/-- `llvm::AtomicOrdering`: target atomic ordering. -/
inductive LLVMAtomicOrdering
  | NotAtomic | Unordered | Monotonic | Acquire | Release
  | AcquireRelease | SequentiallyConsistent
deriving DecidableEq, Repr

/-! ## Enum translators (`getLLVMCmpPredicate`, `getLLVMAtomicBinOp`,
`getLLVMAtomicOrdering`), each a direct transcription of the source
`switch`. -/

/-- `getLLVMCmpPredicate(ICmpPredicate)` from the source. -/
def getLLVMCmpPredicate : ICmpPredicate → CmpInstPredicate
  | .eq => .ICMP_EQ
  | .ne => .ICMP_NE
  | .slt => .ICMP_SLT
  | .sle => .ICMP_SLE
  | .sgt => .ICMP_SGT
  | .sge => .ICMP_SGE
  | .ult => .ICMP_ULT
  | .ule => .ICMP_ULE
  | .ugt => .ICMP_UGT
  | .uge => .ICMP_UGE

/-- `getLLVMCmpPredicate(FCmpPredicate)` from the source (the C++ overload
for float predicates). -/
def getLLVMCmpPredicateF : FCmpPredicate → CmpInstPredicate
  | ._false => .FCMP_FALSE
  | .oeq => .FCMP_OEQ
  | .ogt => .FCMP_OGT
  | .oge => .FCMP_OGE
  | .olt => .FCMP_OLT
  | .ole => .FCMP_OLE
  | .one => .FCMP_ONE
  | .ord => .FCMP_ORD
  | .ueq => .FCMP_UEQ
  | .ugt => .FCMP_UGT
  | .uge => .FCMP_UGE
  | .ult => .FCMP_ULT
  | .ule => .FCMP_ULE
  | .une => .FCMP_UNE
  | .uno => .FCMP_UNO
  | ._true => .FCMP_TRUE

/-- `getLLVMAtomicBinOp` from the source. -/
def getLLVMAtomicBinOp : AtomicBinOp → AtomicRMWBinOp
  | .xchg => .Xchg
  | .add => .Add
  | .sub => .Sub
  | ._and => .And
  | .nand => .Nand
  | ._or => .Or
  | ._xor => .Xor
  | .max => .Max
  | .min => .Min
  | .umax => .UMax
  | .umin => .UMin
  | .fadd => .FAdd
  | .fsub => .FSub

/-- `getLLVMAtomicOrdering` from the source. -/
def getLLVMAtomicOrdering : AtomicOrdering → LLVMAtomicOrdering
  | .not_atomic => .NotAtomic
  | .unordered => .Unordered
  | .monotonic => .Monotonic
  | .acquire => .Acquire
  | .release => .Release
  | .acq_rel => .AcquireRelease
  | .seq_cst => .SequentiallyConsistent

/-! ### Enumerations of the finite domains and fixed reference tables -/

/-- All integer comparison predicates, in source order. -/
def allICmpPredicates : List ICmpPredicate :=
  [.eq, .ne, .slt, .sle, .sgt, .sge, .ult, .ule, .ugt, .uge]

/-- All floating comparison predicates, in source order. -/
def allFCmpPredicates : List FCmpPredicate :=
  [._false, .oeq, .ogt, .oge, .olt, .ole, .one, .ord,
   .ueq, .ugt, .uge, .ult, .ule, .une, .uno, ._true]

/-- All atomic read-modify-write operators, in source order. -/
def allAtomicBinOps : List AtomicBinOp :=
  [.xchg, .add, .sub, ._and, .nand, ._or, ._xor,
   .max, .min, .umax, .umin, .fadd, .fsub]

/-- All atomic orderings, in source order. -/
def allAtomicOrderings : List AtomicOrdering :=
  [.not_atomic, .unordered, .monotonic, .acquire, .release, .acq_rel, .seq_cst]

/-- Fixed reference table: each integer predicate with its expected target
predicate. -/
def icmpRefTable : List (ICmpPredicate × CmpInstPredicate) :=
  [(.eq, .ICMP_EQ), (.ne, .ICMP_NE), (.slt, .ICMP_SLT), (.sle, .ICMP_SLE),
   (.sgt, .ICMP_SGT), (.sge, .ICMP_SGE), (.ult, .ICMP_ULT), (.ule, .ICMP_ULE),
   (.ugt, .ICMP_UGT), (.uge, .ICMP_UGE)]

/-- Fixed reference table for floating comparison predicates. -/
def fcmpRefTable : List (FCmpPredicate × CmpInstPredicate) :=
  [(._false, .FCMP_FALSE), (.oeq, .FCMP_OEQ), (.ogt, .FCMP_OGT),
   (.oge, .FCMP_OGE), (.olt, .FCMP_OLT), (.ole, .FCMP_OLE),
   (.one, .FCMP_ONE), (.ord, .FCMP_ORD), (.ueq, .FCMP_UEQ),
   (.ugt, .FCMP_UGT), (.uge, .FCMP_UGE), (.ult, .FCMP_ULT),
   (.ule, .FCMP_ULE), (.une, .FCMP_UNE), (.uno, .FCMP_UNO),
   (._true, .FCMP_TRUE)]

/-- Fixed reference table for atomic read-modify-write operators. -/
def atomicBinOpRefTable : List (AtomicBinOp × AtomicRMWBinOp) :=
  [(.xchg, .Xchg), (.add, .Add), (.sub, .Sub), (._and, .And), (.nand, .Nand),
   (._or, .Or), (._xor, .Xor), (.max, .Max), (.min, .Min), (.umax, .UMax),
   (.umin, .UMin), (.fadd, .FAdd), (.fsub, .FSub)]

/-- Fixed reference table for atomic orderings. -/
def atomicOrderingRefTable : List (AtomicOrdering × LLVMAtomicOrdering) :=
  [(.not_atomic, .NotAtomic), (.unordered, .Unordered),
   (.monotonic, .Monotonic), (.acquire, .Acquire), (.release, .Release),
   (.acq_rel, .AcquireRelease), (.seq_cst, .SequentiallyConsistent)]

/-! ## Fast-math flags (`getFastmathFlags`) -/

/-- MLIR fast-math flag set: 7 independent flags. -/
structure FastmathFlags where
  nnan : Bool
  ninf : Bool
  nsz : Bool
  arcp : Bool
  contract : Bool
  afn : Bool
  reassoc : Bool
deriving DecidableEq, Repr

/-- `llvm::FastMathFlags`: target fast-math flag set, 7 flags, default all
clear. -/
structure LLVMFastMathFlags where
  noNaNs : Bool
  noInfs : Bool
  noSignedZeros : Bool
  allowReciprocal : Bool
  allowContract : Bool
  approxFunc : Bool
  allowReassoc : Bool
deriving DecidableEq, Repr

/-- A freshly constructed `llvm::FastMathFlags` has every flag clear. -/
def LLVMFastMathFlags.empty : LLVMFastMathFlags :=
  ⟨false, false, false, false, false, false, false⟩

/-- The handler table of `getFastmathFlags`: each MLIR flag paired with the
corresponding target setter, in source order. -/
def fmfHandlers :
    List ((FastmathFlags → Bool) × (LLVMFastMathFlags → Bool → LLVMFastMathFlags)) :=
  [(fun f => f.nnan, fun r b => { r with noNaNs := b }),
   (fun f => f.ninf, fun r b => { r with noInfs := b }),
   (fun f => f.nsz, fun r b => { r with noSignedZeros := b }),
   (fun f => f.arcp, fun r b => { r with allowReciprocal := b }),
   (fun f => f.contract, fun r b => { r with allowContract := b }),
   (fun f => f.afn, fun r b => { r with approxFunc := b }),
   (fun f => f.reassoc, fun r b => { r with allowReassoc := b })]

/-- `getFastmathFlags` from the source: start from the default flag set and,
for each handler, set the target flag when the MLIR flag is contained in the
operation's flag set. -/
def getFastmathFlags (fmfMlir : FastmathFlags) : LLVMFastMathFlags :=
  fmfHandlers.foldl
    (fun ret it => if it.1 fmfMlir then it.2 ret true else ret)
    LLVMFastMathFlags.empty

/-! ## Loop metadata builder and cache (`setLoopMetadata`)

Attributes are modelled by their object identity (`AttrId`): the source
cache (`lookupLoopOptionsMetadata` / `mapLoopOptionsMetadata`) is keyed by
attribute identity, not structural value.  Metadata nodes are modelled by
the identity they receive on allocation; the node payload built on lines
236-355 of the source (parallel-access groups, loop options, the Xilinx
legacy entries) only determines node *contents*, which the cache and
sharing behaviour never inspect, so a fresh node records the operation's
attribute dictionary as its payload snapshot. -/

/-- Identity of an MLIR attribute object. -/
abbrev AttrId := Nat

/-- An operation's attribute dictionary: name to attribute-object identity. -/
abbrev AttrDict := List (String × AttrId)

/-- Association-list lookup shared by every map of the model (attribute
dictionaries, the metadata cache, symbol tables, the intrinsic tables). -/
def assocLookup {κ α : Type} [DecidableEq κ] : List (κ × α) → κ → Option α
  | [], _ => none
  | (k, v) :: rest, key => if k = key then some v else assocLookup rest key

@[simp]
theorem assocLookup_nil {κ α : Type} [DecidableEq κ] (key : κ) :
    assocLookup ([] : List (κ × α)) key = none := rfl

@[simp]
theorem assocLookup_cons {κ α : Type} [DecidableEq κ] (k : κ) (v : α)
    (rest : List (κ × α)) (key : κ) :
    assocLookup ((k, v) :: rest) key =
      if k = key then some v else assocLookup rest key := rfl

/-- `Operation::getAttr`: first binding of the given name. -/
def getAttr (attrs : AttrDict) (name : String) : Option AttrId :=
  assocLookup attrs name

/-- `LLVMDialect::getLoopAttrName()`. -/
def loopAttrName : String := "llvm.loop"

/-- The twelve legacy/alternate loop attribute names probed on lines
215-226 of the source, in probe order. -/
def legacyLoopAttrNames : List String :=
  ["llvm.loop.name", "llvm.loop.vectorize.width", "llvm.loop.interleave.count",
   "llvm.loop.unroll.count", "llvm.loop.unroll.withoutcheck",
   "llvm.loop.vectorize.enable", "llvm.loop.distribute.enable",
   "llvm.loop.flatten.enable", "llvm.loop.dataflow.enable",
   "llvm.loop.pipeline.enable", "llvm.loop.latency", "llvm.loop.tripcount"]

/-- The chained `if (!altAttr) altAttr = getAttr(...)` probes: the first
present attribute among a list of names. -/
def firstPresentAttr (attrs : AttrDict) : List String → Option AttrId
  | [] => none
  | n :: rest =>
    match getAttr attrs n with
    | some a => some a
    | none => firstPresentAttr attrs rest

/-- `altAttr` of `setLoopMetadata`: the first present legacy loop attribute. -/
def altLoopAttr (attrs : AttrDict) : Option AttrId :=
  firstPresentAttr attrs legacyLoopAttrNames

/-- Identity of an LLVM metadata node. -/
abbrev MDNodeId := Nat

/-- Loop-metadata translation state: the identity-keyed cache of
`ModuleTranslation` plus an allocator for metadata node identities.  A
freshly built node's payload snapshot (the attribute dictionary it was
built from) is recorded in `nodes`. -/
structure MDState where
  cache : List (AttrId × MDNodeId)
  nodes : List (MDNodeId × AttrDict)
  nextNode : MDNodeId
deriving DecidableEq, Repr

/-- `ModuleTranslation::lookupLoopOptionsMetadata`. -/
def lookupLoopOptionsMetadata (st : MDState) (a : AttrId) : Option MDNodeId :=
  assocLookup st.cache a

/-- `ModuleTranslation::mapLoopOptionsMetadata`. -/
def mapLoopOptionsMetadata (st : MDState) (a : AttrId) (md : MDNodeId) :
    MDState :=
  { st with cache := (a, md) :: st.cache }

/-- `setLoopMetadata` from the source: returns the metadata node attached to
the branch instruction (`none` when no loop attribute is present) together
with the updated translation state.

Cache discipline of lines 228-235 and 357-361: the primary attribute's
lookup result is overwritten by the legacy attribute's lookup result when a
legacy attribute is present; a fresh node is registered under the primary
attribute and under the first present legacy attribute. -/
def setLoopMetadata (attrs : AttrDict) (st : MDState) :
    Option MDNodeId × MDState :=
  let attr := getAttr attrs loopAttrName
  let altAttr := altLoopAttr attrs
  if attr.isSome || altAttr.isSome then
    let loopMD0 : Option MDNodeId := none
    let loopMD1 :=
      match attr with
      | some a => lookupLoopOptionsMetadata st a
      | none => loopMD0
    let loopMD2 :=
      match altAttr with
      | some a => lookupLoopOptionsMetadata st a
      | none => loopMD1
    match loopMD2 with
    | some md => (some md, st)
    | none =>
      let newMD := st.nextNode
      let st1 : MDState :=
        { st with nodes := (newMD, attrs) :: st.nodes, nextNode := newMD + 1 }
      let st2 :=
        match attr with
        | some a => mapLoopOptionsMetadata st1 a newMD
        | none => st1
      let st3 :=
        match altAttr with
        | some a => mapLoopOptionsMetadata st2 a newMD
        | none => st2
      (some newMD, st3)
  else (none, st)

/-! ## Types, values and results shared by the emitters -/

/-- Target (LLVM IR) types, as far as the emitters inspect them: the only
structural query the lowering performs on an emitted call's type is
`isVoidTy()`.  Operand and result types of intrinsic calls are already
target types here (the external `convertType` black box is the identity of
this model). -/
inductive LType
  | void
  | int (w : Nat)
  | float_
  | ptr
  | other (n : Nat)
deriving DecidableEq, Repr

/-- `llvm::Type::isVoidTy`. -/
def LType.isVoidTy : LType → Bool
  | .void => true
  | _ => false

/-- `LogicalResult`. -/
inductive LogicalResult
  | success
  | failure
deriving DecidableEq, Repr

/-- `success(bool)` from MLIR: success when the condition holds, failure
otherwise. -/
def successIf (b : Bool) : LogicalResult :=
  if b then .success else .failure

/-- An `llvm::APInt`: a bit-width together with the unsigned value of the
bits. -/
structure APIntM where
  width : Nat
  val : Nat
deriving DecidableEq, Repr

/-- `llvm::APInt::getSExtValue`: interpret the bits as a signed integer
(two's complement at `width` bits). -/
def APIntM.getSExtValue (a : APIntM) : Int :=
  if a.val < 2 ^ (a.width - 1) then (a.val : Int) else (a.val : Int) - 2 ^ a.width

/-- `llvm::APInt::getLimitedValue()`: the zero-extended value (no switch
case value in range exceeds the 64-bit limit in this model). -/
def APIntM.getLimitedValue (a : APIntM) : Nat := a.val

/-- `static_cast<uint32_t>` applied to a signed 64-bit value: truncation to
the low 32 bits. -/
def truncToU32 (z : Int) : Nat := (z % (2 : Int) ^ 32).toNat

/-! ## Call lowering (`LLVM::CallOp` case of `convertOperationImpl`) -/

/-- The function symbol table consulted by `lookupFunction`: function name
to the function's return type (the only component of the emitted call's
type the lowering inspects). -/
structure CallEnv where
  funcs : List (String × LType)
deriving DecidableEq, Repr

/-- `ModuleTranslation::lookupFunction`, reduced to the return type. -/
def lookupFunctionRetTy (env : CallEnv) (name : String) : Option LType :=
  assocLookup env.funcs name

/-- An `LLVM::CallOp` as the lowering reads it: optional direct `callee`
symbol, the declared result count (0 or 1), and — for an indirect call —
the return type of the callee function type read off the first operand's
pointer type. -/
structure CallOpM where
  callee : Option String
  numResults : Nat
  indirectRetTy : LType
deriving DecidableEq, Repr

/-- The `convertCall` lambda: the type of the value returned by the emitted
call instruction (`CreateCall`'s result type is the callee's return type). -/
def convertCallRetTy (env : CallEnv) (op : CallOpM) : LType :=
  match op.callee with
  | some name => (lookupFunctionRetTy env name).getD (LType.other 0)
  | none => op.indirectRetTy

/-- The `LLVM::CallOp` case of `convertOperationImpl` (lines 470-478): a
call with results maps the result and succeeds; a zero-result call succeeds
exactly when the emitted call's type is void. -/
def convertCallOp (env : CallEnv) (op : CallOpM) : LogicalResult :=
  let result := convertCallRetTy env op
  if op.numResults ≠ 0 then .success
  else successIf result.isVoidTy

/-! ## Conditional branch weights (`LLVM::CondBrOp` case) -/

/-- A metadata operand of a built metadata node. -/
inductive MDOp
  | str (s : String)
  | i32 (v : Nat)
deriving DecidableEq, Repr

/-- `llvm::MDBuilder::createBranchWeights`: the `branch_weights` string
followed by the 32-bit weights in order. -/
def createBranchWeights (ws : List Nat) : List MDOp :=
  MDOp.str "branch_weights" :: ws.map MDOp.i32

/-- An `LLVM::CondBrOp` as the weight path reads it: the optional
two-element branch-weights attribute (elements 0 and 1 of the dense
array), plus the attribute dictionary used for loop metadata. -/
structure CondBrOpM where
  branchWeights : Option (APIntM × APIntM)
  attrs : AttrDict
deriving DecidableEq, Repr

/-- The branch-weight metadata built by the `LLVM::CondBrOp` case (lines
594-604): sign-extend each weight, truncate to unsigned 32 bits, and build
the metadata with the true weight first. -/
def convertCondBrWeights (op : CondBrOpM) : Option (List MDOp) :=
  match op.branchWeights with
  | none => none
  | some weightValues =>
    let trueWeight := weightValues.1.getSExtValue
    let falseWeight := weightValues.2.getSExtValue
    some (createBranchWeights [truncToU32 trueWeight, truncToU32 falseWeight])

/-! ## Switch lowering (`LLVM::SwitchOp` case) -/

/-- Identity of a target basic block (the image of `lookupBlock`). -/
abbrev BlockId := Nat

/-- An `LLVM::SwitchOp` as the lowering reads it. -/
structure SwitchOpM where
  caseValues : List APIntM
  caseDestinations : List BlockId
  defaultDestination : BlockId
deriving DecidableEq, Repr

/-- An emitted `llvm::SwitchInst`: default destination plus the case list in
the order the `addCase` calls appended them. -/
structure SwitchInstM where
  default : BlockId
  cases : List (Nat × BlockId)
deriving DecidableEq, Repr

/-- `llvm::SwitchInst::addCase`: appends one case. -/
def SwitchInstM.addCase (inst : SwitchInstM) (v : Nat) (b : BlockId) :
    SwitchInstM :=
  { inst with cases := inst.cases ++ [(v, b)] }

/-- The `LLVM::SwitchOp` case of `convertOperationImpl` (lines 613-640):
create the switch on the default destination, then add one case per
`zip(caseValues, caseDestinations)` element in order. -/
def convertSwitchOp (op : SwitchOpM) : SwitchInstM :=
  let switchInst : SwitchInstM := { default := op.defaultDestination, cases := [] }
  (op.caseValues.zip op.caseDestinations).foldl
    (fun inst i => inst.addCase i.1.getLimitedValue i.2) switchInst

/-! ## Landing pad lowering (`LLVM::LandingpadOp` case) -/

/-- A target value as the landing-pad clause loop classifies it: either a
compile-time constant (with its payload identity) or not. -/
inductive LLVMValueM
  | const (c : Nat)
  | nonconst (id : Nat)
deriving DecidableEq, Repr

/-- An `LLVM::LandingpadOp` as the lowering reads it: the looked-up operand
values and the cleanup flag. -/
structure LandingpadOpM where
  operands : List LLVMValueM
  cleanup : Bool
deriving DecidableEq, Repr

/-- An emitted `llvm::LandingPadInst`. -/
structure LandingPadInstM where
  cleanup : Bool
  clauses : List Nat
deriving DecidableEq, Repr

/-- `llvm::LandingPadInst::addClause`: appends one clause. -/
def LandingPadInstM.addClause (lpi : LandingPadInstM) (c : Nat) :
    LandingPadInstM :=
  { lpi with clauses := lpi.clauses ++ [c] }

/-- The `LLVM::LandingpadOp` case of `convertOperationImpl` (lines 567-582):
set the cleanup flag, then for each operand add a clause when the operand is
a constant (`dyn_cast<llvm::Constant>` succeeds) and skip it otherwise;
always succeed. -/
def convertLandingpadOp (op : LandingpadOpM) :
    LandingPadInstM × LogicalResult :=
  let lpi : LandingPadInstM := { cleanup := op.cleanup, clauses := [] }
  let lpi :=
    op.operands.foldl
      (fun lpi operand =>
        match operand with
        | .const c => lpi.addClause c
        | .nonconst _ => lpi)
      lpi
  (lpi, .success)

/-! ## Intrinsic call lowering (`convertCallLLVMIntrinsicOp`) -/

/-- A candidate function signature: result type and argument types. -/
abbrev FnSig := LType × List LType

/-- The LLVM intrinsic environment consumed by the resolver (the intrinsic
name and signature tables live in the LLVM library, outside this file's
source; they are inputs of the resolver):
`ids` backs `lookupIntrinsicID` (absent means ID 0), `overloadedIDs` backs
`isOverloaded`, and `sigTable` backs
`getIntrinsicInfoTableEntries`/`matchIntrinsicSignature`: the concrete
signatures an intrinsic ID accepts, each with the overload-defining type
arguments the match recovers. -/
structure IntrinsicEnv where
  ids : List (String × Nat)
  overloadedIDs : List Nat
  sigTable : List ((Nat × FnSig) × List LType)
deriving DecidableEq, Repr

/-- `llvm::Function::lookupIntrinsicID`: 0 when the name is unknown. -/
def lookupIntrinsicID (env : IntrinsicEnv) (name : String) : Nat :=
  (assocLookup env.ids name).getD 0

/-- `llvm::Intrinsic::isOverloaded`. -/
def isOverloadedIntrinsic (env : IntrinsicEnv) (id : Nat) : Bool :=
  env.overloadedIDs.contains id

/-- `matchIntrinsicSignature` against the intrinsic's type-pattern table:
`some tys` when the candidate signature instantiates intrinsic `id` with
overloaded type arguments `tys`, `none` on a match failure. -/
def matchIntrinsicSignature (env : IntrinsicEnv) (id : Nat) (ft : FnSig) :
    Option (List LType) :=
  assocLookup env.sigTable (id, ft)

/-- Errors reported through `emitOpError`, attributed to the operation being
lowered (they abort only that operation's lowering: the function returns
them to its caller as a failed result). -/
inductive OpError
  | unknownIntrinsic (name : String)
  | intrinsicTypeMismatch
deriving DecidableEq, Repr

/-- An `LLVM::CallIntrinsicOp` as the lowering reads it. -/
structure CallIntrinsicOpM where
  intrin : String
  operandTypes : List LType
  numResults : Nat
  resultType : LType
deriving DecidableEq, Repr

/-- A fetched intrinsic declaration (`llvm::Intrinsic::getDeclaration`):
the intrinsic ID and the overload type arguments it was fetched with. -/
abbrev IntrinsicDecl := Nat × List LType

/-- `getOverloadedDeclaration` from the source: build the candidate function
type from the converted operand types, with void result when the call
declares no results, and match it against the intrinsic's type-pattern
table; a match failure is a reportable error on the operation. -/
def getOverloadedDeclaration (env : IntrinsicEnv) (op : CallIntrinsicOpM)
    (id : Nat) : Except OpError IntrinsicDecl :=
  let allArgTys := op.operandTypes
  let resTy := if op.numResults = 0 then LType.void else op.resultType
  let ft : FnSig := (resTy, allArgTys)
  match matchIntrinsicSignature env id ft with
  | none => .error .intrinsicTypeMismatch
  | some overloadedArgTys => .ok (id, overloadedArgTys)

/-- `convertCallLLVMIntrinsicOp` from the source: unknown intrinsic names
are reportable errors; overloaded intrinsics go through
`getOverloadedDeclaration`; non-overloaded intrinsics are fetched directly
with no type arguments. -/
def convertCallLLVMIntrinsicOp (env : IntrinsicEnv) (op : CallIntrinsicOpM) :
    Except OpError IntrinsicDecl :=
  let id := lookupIntrinsicID env op.intrin
  if id = 0 then .error (.unknownIntrinsic op.intrin)
  else if isOverloadedIntrinsic env id then
    getOverloadedDeclaration env op id
  else .ok (id, [])

/-! ## The dispatch orchestrator (`convertOperationImpl`) -/

/-- An `LLVM::InvokeOp` as the lowering reads it: same callee-resolution and
result-arity shape as `CallOpM`. -/
structure InvokeOpM where
  callee : Option String
  numResults : Nat
  indirectRetTy : LType
deriving DecidableEq, Repr

/-- The `LLVM::InvokeOp` case (lines 538-565): a result is mapped and
lowering succeeds; a zero-result invoke succeeds exactly when the emitted
invoke's type is void. -/
def convertInvokeOp (env : CallEnv) (op : InvokeOpM) : LogicalResult :=
  let retTy :=
    match op.callee with
    | some name => (lookupFunctionRetTy env name).getD (LType.other 0)
    | none => op.indirectRetTy
  if op.numResults ≠ 0 then .success
  else successIf retTy.isVoidTy

/-- An `LLVM::BrOp`: the successor and the attribute dictionary consulted by
`setLoopMetadata`. -/
structure BrOpM where
  succ : BlockId
  attrs : AttrDict
deriving DecidableEq, Repr

/-- An operation reaching `convertOperationImpl`, as a closed sum over the
operation classes the special-case chain tests with `isa`/`dyn_cast`, in
the source's order; `generic` stands for every other operation. -/
inductive OperationM
  | call (op : CallOpM)
  | inlineAsm (numResults : Nat)
  | invoke (op : InvokeOpM)
  | landingpad (op : LandingpadOpM)
  | br (op : BrOpM)
  | condbr (op : CondBrOpM)
  | switchOp (op : SwitchOpM)
  | addressOf (symbol : String)
  | generic (opcode : String)
deriving DecidableEq, Repr

/-- `convertOperationImpl` (lines 438-663): first the declarative
table-driven path (the two included `.inc` conversion tables, supplied here
as a lookup function since they are generated outside this source file),
then the fixed chain of special-case emitters, and `failure` when nothing
matches.  The loop-metadata state is threaded through the branch cases. -/
def convertOperationImpl (table : OperationM → Option LogicalResult)
    (env : CallEnv) (st : MDState) (op : OperationM) :
    LogicalResult × MDState :=
  match table op with
  | some r => (r, st)
  | none =>
    match op with
    | .call c => (convertCallOp env c, st)
    | .inlineAsm _ => (.success, st)
    | .invoke i => (convertInvokeOp env i, st)
    | .landingpad l => ((convertLandingpadOp l).2, st)
    | .br b => (.success, (setLoopMetadata b.attrs st).2)
    | .condbr c => (.success, (setLoopMetadata c.attrs st).2)
    | .switchOp _ => (.success, st)
    | .addressOf _ => (.success, st)
    | .generic _ => (.failure, st)

/-- The special-case emitters as partial handlers, in the source's priority
order (call, inline assembly, invoke, landing pad, unconditional branch,
conditional branch, switch, address-of-symbol). -/
def specialCaseHandlers (env : CallEnv) (st : MDState) :
    List (OperationM → Option (LogicalResult × MDState)) :=
  [fun op => match op with
     | .call c => some (convertCallOp env c, st)
     | _ => none,
   fun op => match op with
     | .inlineAsm _ => some (.success, st)
     | _ => none,
   fun op => match op with
     | .invoke i => some (convertInvokeOp env i, st)
     | _ => none,
   fun op => match op with
     | .landingpad l => some ((convertLandingpadOp l).2, st)
     | _ => none,
   fun op => match op with
     | .br b => some (.success, (setLoopMetadata b.attrs st).2)
     | _ => none,
   fun op => match op with
     | .condbr c => some (.success, (setLoopMetadata c.attrs st).2)
     | _ => none,
   fun op => match op with
     | .switchOp _ => some (.success, st)
     | _ => none,
   fun op => match op with
     | .addressOf _ => some (.success, st)
     | _ => none]

/-- First defined result of a list of partial handlers. -/
def firstSome {α β : Type} : List (α → Option β) → α → Option β
  | [], _ => none
  | f :: fs, x =>
    match f x with
    | some r => some r
    | none => firstSome fs x

/-! ## Shared helper lemmas -/

theorem isVoidTy_iff {t : LType} : t.isVoidTy = true ↔ t = LType.void := by
  cases t <;> simp [LType.isVoidTy]

theorem successIf_eq_success {b : Bool} :
    successIf b = LogicalResult.success ↔ b = true := by
  cases b <;> simp [successIf]

theorem successIf_eq_failure {b : Bool} :
    successIf b = LogicalResult.failure ↔ b = false := by
  cases b <;> simp [successIf]

/-! ## Claim theorems -/

/-- C6 (amended): each enum translator is total on its finite domain and
injective, and its value table matches the fixed reference table; the
domains have 10 integer predicates, 16 (not 14) float predicates, 13 atomic
read-modify-write operators and 7 atomic orderings. -/
theorem enum_translators_bijective :
    (∀ p : ICmpPredicate, p ∈ allICmpPredicates) ∧
    allICmpPredicates.Nodup ∧ allICmpPredicates.length = 10 ∧
    allICmpPredicates.map (fun p => (p, getLLVMCmpPredicate p)) = icmpRefTable ∧
    (allICmpPredicates.map getLLVMCmpPredicate).Nodup ∧
    (∀ p : FCmpPredicate, p ∈ allFCmpPredicates) ∧
    allFCmpPredicates.Nodup ∧ allFCmpPredicates.length = 16 ∧
    allFCmpPredicates.map (fun p => (p, getLLVMCmpPredicateF p)) = fcmpRefTable ∧
    (allFCmpPredicates.map getLLVMCmpPredicateF).Nodup ∧
    (∀ p : AtomicBinOp, p ∈ allAtomicBinOps) ∧
    allAtomicBinOps.Nodup ∧ allAtomicBinOps.length = 13 ∧
    allAtomicBinOps.map (fun p => (p, getLLVMAtomicBinOp p)) = atomicBinOpRefTable ∧
    (allAtomicBinOps.map getLLVMAtomicBinOp).Nodup ∧
    (∀ p : AtomicOrdering, p ∈ allAtomicOrderings) ∧
    allAtomicOrderings.Nodup ∧ allAtomicOrderings.length = 7 ∧
    allAtomicOrderings.map (fun p => (p, getLLVMAtomicOrdering p)) = atomicOrderingRefTable ∧
    (allAtomicOrderings.map getLLVMAtomicOrdering).Nodup := by
  refine ⟨fun p => by cases p <;> decide, by decide, by decide, by decide, by decide,
          fun p => by cases p <;> decide, by decide, by decide, by decide, by decide,
          fun p => by cases p <;> decide, by decide, by decide, by decide, by decide,
          fun p => by cases p <;> decide, by decide, by decide, by decide, by decide⟩

/-- C6 counterexample: the floating comparison predicate domain handled by
the source `switch` has 16 distinct variants, not 14 as the claim states. -/
theorem enum_translators_fcmp_count :
    allFCmpPredicates.Nodup ∧ allFCmpPredicates.length = 16 ∧
    allFCmpPredicates.length ≠ 14 := by
  decide

/-- C7: for every subset of the 7 fast-math flags present on a source
operation, the translated target flag set has exactly the corresponding
flags set and no others, each flag copied independently. -/
theorem fastmath_flags_exact (f : FastmathFlags) :
    (getFastmathFlags f).noNaNs = f.nnan ∧
    (getFastmathFlags f).noInfs = f.ninf ∧
    (getFastmathFlags f).noSignedZeros = f.nsz ∧
    (getFastmathFlags f).allowReciprocal = f.arcp ∧
    (getFastmathFlags f).allowContract = f.contract ∧
    (getFastmathFlags f).approxFunc = f.afn ∧
    (getFastmathFlags f).allowReassoc = f.reassoc := by
  obtain ⟨a, b, c, d, e, g, h⟩ := f
  cases a <;> cases b <;> cases c <;> cases d <;> cases e <;> cases g <;>
    cases h <;> decide

/-- C1 counterexample: a direct call to a declared-void callee with one
declared result does not fail — line 472 of the source returns success
unconditionally when the operation declares a result. -/
theorem call_void_one_result_succeeds :
    convertCallOp ⟨[("f", LType.void)]⟩ ⟨some "f", 1, LType.void⟩ =
      LogicalResult.success ∧
    convertCallOp ⟨[("f", LType.void)]⟩ ⟨some "f", 1, LType.void⟩ ≠
      LogicalResult.failure := by
  decide

/-- C1 (amended): a direct call to a declared-void callee with zero declared
results succeeds; a call with one (that is, any nonzero number of) declared
result succeeds unconditionally, whatever the callee — declared-void or
non-void, direct or indirect; a call to a non-void callee with zero
declared results fails. -/
theorem call_result_arity (env : CallEnv) (fv fnv : String) (rt : LType)
    (irt : LType) (opAny : CallOpM)
    (hv : lookupFunctionRetTy env fv = some LType.void)
    (hnv : lookupFunctionRetTy env fnv = some rt)
    (hrt : rt ≠ LType.void)
    (hAny : opAny.numResults ≠ 0) :
    convertCallOp env ⟨some fv, 0, irt⟩ = LogicalResult.success ∧
    convertCallOp env ⟨some fv, 1, irt⟩ = LogicalResult.success ∧
    convertCallOp env ⟨some fnv, 1, irt⟩ = LogicalResult.success ∧
    convertCallOp env opAny = LogicalResult.success ∧
    convertCallOp env ⟨some fnv, 0, irt⟩ = LogicalResult.failure := by
  refine ⟨?_, ?_, ?_, ?_, ?_⟩
  · simp [convertCallOp, convertCallRetTy, hv, successIf, LType.isVoidTy]
  · simp [convertCallOp]
  · simp [convertCallOp]
  · simp [convertCallOp, hAny]
  · simp only [convertCallOp, convertCallRetTy, hnv, Option.getD_some]
    simp only [if_neg (by simp : ¬(0 : Nat) ≠ 0)]
    rw [successIf_eq_failure]
    cases rt <;> simp_all [LType.isVoidTy]

/-- C1 witness: a concrete symbol table with a void function `f` and an
`i32` function `g`; the one-result call succeeds for the void callee, the
non-void callee, and an indirect call to a non-void callee alike. -/
theorem call_result_arity_witness :
    convertCallOp ⟨[("f", LType.void), ("g", LType.int 32)]⟩
        ⟨some "f", 0, LType.void⟩ = LogicalResult.success ∧
    convertCallOp ⟨[("f", LType.void), ("g", LType.int 32)]⟩
        ⟨some "f", 1, LType.void⟩ = LogicalResult.success ∧
    convertCallOp ⟨[("f", LType.void), ("g", LType.int 32)]⟩
        ⟨some "g", 1, LType.void⟩ = LogicalResult.success ∧
    convertCallOp ⟨[("f", LType.void), ("g", LType.int 32)]⟩
        ⟨none, 1, LType.float_⟩ = LogicalResult.success ∧
    convertCallOp ⟨[("f", LType.void), ("g", LType.int 32)]⟩
        ⟨some "g", 0, LType.void⟩ = LogicalResult.failure :=
  call_result_arity ⟨[("f", LType.void), ("g", LType.int 32)]⟩ "f" "g"
    (LType.int 32) LType.void ⟨none, 1, LType.float_⟩
    (by decide) (by decide) (by decide) (by decide)

/-- The case list produced by folding `addCase` over a pair list: the cases
already present followed by one case per pair, in order. -/
theorem foldl_addCase_cases (l : List (APIntM × BlockId)) (inst : SwitchInstM) :
    (l.foldl (fun inst i => inst.addCase i.1.getLimitedValue i.2) inst).cases =
      inst.cases ++ l.map (fun i => (i.1.getLimitedValue, i.2)) := by
  induction l generalizing inst with
  | nil => simp
  | cons x xs ih =>
    rw [List.foldl_cons, ih]
    simp [SwitchInstM.addCase]

/-- Folding `addCase` never changes the default destination. -/
theorem foldl_addCase_default (l : List (APIntM × BlockId)) (inst : SwitchInstM) :
    (l.foldl (fun inst i => inst.addCase i.1.getLimitedValue i.2) inst).default =
      inst.default := by
  induction l generalizing inst with
  | nil => rfl
  | cons x xs ih =>
    rw [List.foldl_cons, ih]
    rfl

/-- C3: for every conditional-branch operation carrying a two-element
branch-weight attribute, lowering builds branch-weight metadata from
exactly the two weights in order — first weight then second weight — each
interpreted as unsigned 32-bit obtained by sign-extending the attribute
value and truncating to 32 bits. -/
theorem condbr_branch_weights (op : CondBrOpM) (w0 w1 : APIntM)
    (h : op.branchWeights = some (w0, w1)) :
    convertCondBrWeights op =
      some [MDOp.str "branch_weights",
            MDOp.i32 (truncToU32 w0.getSExtValue),
            MDOp.i32 (truncToU32 w1.getSExtValue)] := by
  simp [convertCondBrWeights, h, createBranchWeights]

/-- C3 witness: weights `(7, 3)` (32-bit) produce branch-weight metadata
encoding `7` then `3`. -/
theorem condbr_branch_weights_witness :
    convertCondBrWeights ⟨some (⟨32, 7⟩, ⟨32, 3⟩), []⟩ =
      some [MDOp.str "branch_weights", MDOp.i32 7, MDOp.i32 3] := by
  rw [condbr_branch_weights ⟨some (⟨32, 7⟩, ⟨32, 3⟩), []⟩ ⟨32, 7⟩ ⟨32, 3⟩ rfl]
  decide

/-- C4: the lowered switch keeps the default destination, has one case per
`(value, destination)` pair — duplicates included — and its case at index
`i` is exactly the `i`-th supplied pair: case order is input order, not
sorted. -/
theorem switch_case_order (op : SwitchOpM) (i : Nat)
    (h1 : i < op.caseValues.length) (h2 : i < op.caseDestinations.length) :
    (convertSwitchOp op).default = op.defaultDestination ∧
    (convertSwitchOp op).cases.length =
      min op.caseValues.length op.caseDestinations.length ∧
    (convertSwitchOp op).cases[i]? =
      some ((op.caseValues.get ⟨i, h1⟩).getLimitedValue,
            op.caseDestinations.get ⟨i, h2⟩) := by
  refine ⟨?_, ?_, ?_⟩
  · simp [convertSwitchOp, foldl_addCase_default]
  · simp [convertSwitchOp, foldl_addCase_cases]
  · simp only [convertSwitchOp, foldl_addCase_cases, List.nil_append,
      List.getElem?_map]
    have hz : (op.caseValues.zip op.caseDestinations)[i]? =
        some (op.caseValues.get ⟨i, h1⟩, op.caseDestinations.get ⟨i, h2⟩) := by
      rw [List.getElem?_zip_eq_some]
      exact ⟨List.getElem?_eq_getElem h1, List.getElem?_eq_getElem h2⟩
    rw [hz]
    rfl

/-- C4 witness: case values `[5, 1, 9]` with destinations `[B1, B2, B3]`
(blocks `1, 2, 3`) and default `B0` (block `0`) yield the case list
`(5,B1),(1,B2),(9,B3)` in input order. -/
theorem switch_case_order_witness :
    0 < 3 ∧
    ((convertSwitchOp ⟨[⟨32, 5⟩, ⟨32, 1⟩, ⟨32, 9⟩], [1, 2, 3], 0⟩).default = 0 ∧
     (convertSwitchOp ⟨[⟨32, 5⟩, ⟨32, 1⟩, ⟨32, 9⟩], [1, 2, 3], 0⟩).cases.length = min 3 3 ∧
     (convertSwitchOp ⟨[⟨32, 5⟩, ⟨32, 1⟩, ⟨32, 9⟩], [1, 2, 3], 0⟩).cases[0]? =
       some (5, 1)) ∧
    (convertSwitchOp ⟨[⟨32, 5⟩, ⟨32, 1⟩, ⟨32, 9⟩], [1, 2, 3], 0⟩).cases =
      [(5, 1), (1, 2), (9, 3)] :=
  ⟨by decide,
   switch_case_order ⟨[⟨32, 5⟩, ⟨32, 1⟩, ⟨32, 9⟩], [1, 2, 3], 0⟩ 0
     (by decide) (by decide),
   by decide⟩

/-- The clause list produced by folding the clause loop: the clauses already
present followed by the constant operands' payloads, in operand order. -/
theorem foldl_addClause_clauses (l : List LLVMValueM) (lpi : LandingPadInstM) :
    (l.foldl
        (fun lpi operand =>
          match operand with
          | .const c => lpi.addClause c
          | .nonconst _ => lpi)
        lpi).clauses =
      lpi.clauses ++ l.filterMap
        (fun v => match v with | .const c => some c | .nonconst _ => none) := by
  induction l generalizing lpi with
  | nil => simp
  | cons x xs ih =>
    rw [List.foldl_cons, ih]
    cases x <;> simp [LandingPadInstM.addClause]

/-- C5: landing-pad lowering always succeeds, adds one clause per operand
that is a compile-time constant in operand order and silently skips
non-constant operands; in particular operands `[constA, nonConst, constB]`
yield exactly the clauses of `constA` then `constB`. -/
theorem landingpad_clauses (op other : LandingpadOpM) (x y z : Nat)
    (h : op.operands =
      [LLVMValueM.const x, LLVMValueM.nonconst y, LLVMValueM.const z]) :
    (convertLandingpadOp op).2 = LogicalResult.success ∧
    (convertLandingpadOp op).1.clauses = [x, z] ∧
    (convertLandingpadOp op).2 = (convertLandingpadOp other).2 ∧
    (convertLandingpadOp other).2 = LogicalResult.success ∧
    (convertLandingpadOp other).1.clauses =
      other.operands.filterMap
        (fun v => match v with | .const c => some c | .nonconst _ => none) := by
  refine ⟨rfl, ?_, rfl, rfl, ?_⟩
  · simp [convertLandingpadOp, foldl_addClause_clauses, h,
      LandingPadInstM.addClause]
  · simp [convertLandingpadOp, foldl_addClause_clauses]

/-- C5 witness: operands `[const 10, nonconst 0, const 20]` give exactly two
clauses `[10, 20]`, and lowering succeeds. -/
theorem landingpad_clauses_witness :
    (convertLandingpadOp ⟨[.const 10, .nonconst 0, .const 20], false⟩).2 =
      LogicalResult.success ∧
    (convertLandingpadOp ⟨[.const 10, .nonconst 0, .const 20], false⟩).1.clauses =
      [10, 20] ∧
    (convertLandingpadOp ⟨[.const 10, .nonconst 0, .const 20], false⟩).2 =
      (convertLandingpadOp ⟨[.const 7], true⟩).2 ∧
    (convertLandingpadOp ⟨[.const 7], true⟩).2 = LogicalResult.success ∧
    (convertLandingpadOp ⟨[.const 7], true⟩).1.clauses =
      [LLVMValueM.const 7].filterMap
        (fun v => match v with | .const c => some c | .nonconst _ => none) :=
  landingpad_clauses ⟨[.const 10, .nonconst 0, .const 20], false⟩
    ⟨[.const 7], true⟩ 10 0 20 rfl

/-- Unfolding of `setLoopMetadata` for an operation with a primary loop
attribute and no legacy attribute: a cache hit is reused, a miss builds a
fresh node registered under the primary attribute. -/
theorem setLoopMetadata_primary (attrs : AttrDict) (st : MDState) (a : AttrId)
    (h : getAttr attrs loopAttrName = some a)
    (g : altLoopAttr attrs = none) :
    setLoopMetadata attrs st =
      match lookupLoopOptionsMetadata st a with
      | some md => (some md, st)
      | none =>
        (some st.nextNode,
         ⟨(a, st.nextNode) :: st.cache, (st.nextNode, attrs) :: st.nodes,
          st.nextNode + 1⟩) := by
  rw [setLoopMetadata, h, g]
  cases hl : lookupLoopOptionsMetadata st a <;>
    simp [hl, mapLoopOptionsMetadata]

/-- Unfolding of `setLoopMetadata` for an operation carrying both the
primary loop attribute and a legacy attribute: the legacy attribute's
lookup result replaces the primary attribute's, and a fresh node is
registered under the legacy attribute first and the primary attribute
second. -/
theorem setLoopMetadata_primary_alt (attrs : AttrDict) (st : MDState)
    (a b : AttrId)
    (h : getAttr attrs loopAttrName = some a)
    (g : altLoopAttr attrs = some b) :
    setLoopMetadata attrs st =
      match lookupLoopOptionsMetadata st b with
      | some md => (some md, st)
      | none =>
        (some st.nextNode,
         ⟨(b, st.nextNode) :: (a, st.nextNode) :: st.cache,
          (st.nextNode, attrs) :: st.nodes, st.nextNode + 1⟩) := by
  rw [setLoopMetadata, h, g]
  cases hl : lookupLoopOptionsMetadata st b <;>
    simp [hl, mapLoopOptionsMetadata]

/-- C2: two branch operations whose loop attribute is the same attribute
object receive the identical metadata node — whether the second lowering
hits the cache entry the first one created or both hit a pre-existing
entry — while two operations with distinct attribute objects (here: both
absent from the cache) receive distinct, freshly allocated nodes. -/
theorem loop_metadata_identity_sharing
    (st : MDState) (a1 a2 d1 d2 : AttrDict) (a b c : AttrId)
    (h1 : getAttr a1 loopAttrName = some a)
    (h2 : getAttr a2 loopAttrName = some a)
    (g1 : altLoopAttr a1 = none) (g2 : altLoopAttr a2 = none)
    (hb : getAttr d1 loopAttrName = some b)
    (hc : getAttr d2 loopAttrName = some c)
    (g3 : altLoopAttr d1 = none) (g4 : altLoopAttr d2 = none)
    (hbc : b ≠ c)
    (nb : lookupLoopOptionsMetadata st b = none)
    (nc : lookupLoopOptionsMetadata st c = none) :
    ((setLoopMetadata a2 (setLoopMetadata a1 st).2).1 = (setLoopMetadata a1 st).1
      ∧ (setLoopMetadata a1 st).1.isSome = true)
    ∧ (setLoopMetadata d2 (setLoopMetadata d1 st).2).1 ≠ (setLoopMetadata d1 st).1 := by
  constructor
  · rw [setLoopMetadata_primary a1 st a h1 g1]
    cases hl : lookupLoopOptionsMetadata st a with
    | some md =>
      simp only []
      rw [setLoopMetadata_primary a2 st a h2 g2, hl]
      simp
    | none =>
      simp only []
      rw [setLoopMetadata_primary a2 _ a h2 g2]
      simp [lookupLoopOptionsMetadata]
  · rw [setLoopMetadata_primary d1 st b hb g3, nb]
    simp only []
    rw [setLoopMetadata_primary d2 _ c hc g4]
    simp only [lookupLoopOptionsMetadata] at nc
    simp [lookupLoopOptionsMetadata, hbc, nc]

/-- C2 witness: lowering two branches that both carry attribute object `5`
as `llvm.loop` shares one node; attribute objects `7` and `8` get distinct
nodes. -/
theorem loop_metadata_identity_sharing_witness :
    ((setLoopMetadata [("llvm.loop", 5)]
          (setLoopMetadata [("llvm.loop", 5)] ⟨[], [], 0⟩).2).1 =
        (setLoopMetadata [("llvm.loop", 5)] ⟨[], [], 0⟩).1
      ∧ (setLoopMetadata [("llvm.loop", 5)] ⟨[], [], 0⟩).1.isSome = true)
    ∧ (setLoopMetadata [("llvm.loop", 8)]
          (setLoopMetadata [("llvm.loop", 7)] ⟨[], [], 0⟩).2).1 ≠
        (setLoopMetadata [("llvm.loop", 7)] ⟨[], [], 0⟩).1 :=
  loop_metadata_identity_sharing ⟨[], [], 0⟩
    [("llvm.loop", 5)] [("llvm.loop", 5)] [("llvm.loop", 7)] [("llvm.loop", 8)]
    5 7 8 (by decide) (by decide) (by decide) (by decide) (by decide)
    (by decide) (by decide) (by decide) (by decide) (by decide) (by decide)

/-- C10: the legacy loop attribute used as cache key is the first present
among the twelve probed names (an attribute at `llvm.loop.name` wins over
every later name); when both the primary attribute and a legacy attribute
are present, the legacy attribute's cache lookup overrides the primary
attribute's, so even with a node cached under the primary attribute a fresh
node is built when the legacy attribute has no entry, and the fresh node is
registered under the primary and the first legacy attribute and no other
key. -/
theorem loop_metadata_legacy_override
    (st : MDState) (attrs d : AttrDict) (a b x : AttrId) (m : MDNodeId)
    (k : AttrId)
    (hp : getAttr attrs loopAttrName = some a)
    (halt : altLoopAttr attrs = some b)
    (hbnone : lookupLoopOptionsMetadata st b = none)
    (ham : lookupLoopOptionsMetadata st a = some m)
    (hfresh : m ≠ st.nextNode)
    (hk1 : k ≠ a) (hk2 : k ≠ b)
    (hd : getAttr d "llvm.loop.name" = some x) :
    (setLoopMetadata attrs st).1 = some st.nextNode ∧
    (setLoopMetadata attrs st).1 ≠ some m ∧
    lookupLoopOptionsMetadata (setLoopMetadata attrs st).2 a =
      some st.nextNode ∧
    lookupLoopOptionsMetadata (setLoopMetadata attrs st).2 b =
      some st.nextNode ∧
    lookupLoopOptionsMetadata (setLoopMetadata attrs st).2 k =
      lookupLoopOptionsMetadata st k ∧
    altLoopAttr d = some x := by
  rw [setLoopMetadata_primary_alt attrs st a b hp halt, hbnone]
  simp only []
  refine ⟨?_, ?_, ?_, ?_, ?_, ?_⟩
  · simp
  · simp only [ne_eq, Option.some.injEq]
    exact Ne.symm hfresh
  · by_cases hba : b = a <;> simp [lookupLoopOptionsMetadata, hba]
  · simp [lookupLoopOptionsMetadata]
  · simp [lookupLoopOptionsMetadata, Ne.symm hk1, Ne.symm hk2]
  · rw [altLoopAttr, legacyLoopAttrNames, firstPresentAttr, hd]

/-- C10 witness: cache holds attribute `1` mapped to node `0`; an operation
carrying `llvm.loop` = attribute `1` and `llvm.loop.name` = attribute `2`
builds fresh node `1` instead of reusing node `0`, and registers it under
attributes `1` and `2` but not under `3`. -/
theorem loop_metadata_legacy_override_witness :
    (setLoopMetadata [("llvm.loop", 1), ("llvm.loop.name", 2)]
        ⟨[(1, 0)], [(0, [("llvm.loop", 1)])], 1⟩).1 = some 1 ∧
    (setLoopMetadata [("llvm.loop", 1), ("llvm.loop.name", 2)]
        ⟨[(1, 0)], [(0, [("llvm.loop", 1)])], 1⟩).1 ≠ some 0 ∧
    lookupLoopOptionsMetadata
      (setLoopMetadata [("llvm.loop", 1), ("llvm.loop.name", 2)]
        ⟨[(1, 0)], [(0, [("llvm.loop", 1)])], 1⟩).2 1 = some 1 ∧
    lookupLoopOptionsMetadata
      (setLoopMetadata [("llvm.loop", 1), ("llvm.loop.name", 2)]
        ⟨[(1, 0)], [(0, [("llvm.loop", 1)])], 1⟩).2 2 = some 1 ∧
    lookupLoopOptionsMetadata
      (setLoopMetadata [("llvm.loop", 1), ("llvm.loop.name", 2)]
        ⟨[(1, 0)], [(0, [("llvm.loop", 1)])], 1⟩).2 3 =
      lookupLoopOptionsMetadata ⟨[(1, 0)], [(0, [("llvm.loop", 1)])], 1⟩ 3 ∧
    altLoopAttr [("llvm.loop.name", 4), ("llvm.loop.tripcount", 6)] = some 4 :=
  loop_metadata_legacy_override ⟨[(1, 0)], [(0, [("llvm.loop", 1)])], 1⟩
    [("llvm.loop", 1), ("llvm.loop.name", 2)]
    [("llvm.loop.name", 4), ("llvm.loop.tripcount", 6)]
    1 2 4 0 3 (by decide) (by decide) (by decide) (by decide) (by decide)
    (by decide) (by decide) (by decide)

/-- C8: lowering an intrinsic call fails with an error attributed to the
operation (a returned failure aborting only this operation's lowering)
exactly when the intrinsic name is unknown, or, for an overloaded
intrinsic, when the candidate function type built from the call's operand
types — with void result for a zero-result call — does not match the
intrinsic's type-pattern table; a non-overloaded intrinsic's declaration is
fetched directly with no type arguments. -/
theorem intrinsic_call_errors (env : IntrinsicEnv)
    (op1 op2 op3 : CallIntrinsicOpM) (id2 id3 : Nat)
    (h1 : lookupIntrinsicID env op1.intrin = 0)
    (h2a : lookupIntrinsicID env op2.intrin = id2) (h2b : id2 ≠ 0)
    (h2c : isOverloadedIntrinsic env id2 = true)
    (h2d : op2.numResults = 0)
    (h2e : matchIntrinsicSignature env id2 (LType.void, op2.operandTypes) = none)
    (h3a : lookupIntrinsicID env op3.intrin = id3) (h3b : id3 ≠ 0)
    (h3c : isOverloadedIntrinsic env id3 = false) :
    convertCallLLVMIntrinsicOp env op1 =
      Except.error (OpError.unknownIntrinsic op1.intrin) ∧
    convertCallLLVMIntrinsicOp env op2 =
      Except.error OpError.intrinsicTypeMismatch ∧
    convertCallLLVMIntrinsicOp env op3 = Except.ok (id3, []) := by
  refine ⟨?_, ?_, ?_⟩
  · simp [convertCallLLVMIntrinsicOp, h1]
  · simp [convertCallLLVMIntrinsicOp, h2a, h2b, h2c,
      getOverloadedDeclaration, h2d, h2e]
  · simp [convertCallLLVMIntrinsicOp, h3a, h3b, h3c]

/-- C8 witness: an environment with overloaded intrinsic `llvm.x` (ID 1,
accepting only `void(ptr)`) and non-overloaded `llvm.y` (ID 2); an unknown
name, a mismatching overloaded call, and a non-overloaded call. -/
theorem intrinsic_call_errors_witness :
    convertCallLLVMIntrinsicOp
        ⟨[("llvm.x", 1), ("llvm.y", 2)], [1],
         [((1, (LType.void, [LType.ptr])), [LType.ptr])]⟩
        ⟨"llvm.z", [], 0, LType.void⟩ =
      Except.error (OpError.unknownIntrinsic "llvm.z") ∧
    convertCallLLVMIntrinsicOp
        ⟨[("llvm.x", 1), ("llvm.y", 2)], [1],
         [((1, (LType.void, [LType.ptr])), [LType.ptr])]⟩
        ⟨"llvm.x", [LType.int 32], 0, LType.void⟩ =
      Except.error OpError.intrinsicTypeMismatch ∧
    convertCallLLVMIntrinsicOp
        ⟨[("llvm.x", 1), ("llvm.y", 2)], [1],
         [((1, (LType.void, [LType.ptr])), [LType.ptr])]⟩
        ⟨"llvm.y", [LType.float_], 1, LType.float_⟩ =
      Except.ok (2, []) :=
  intrinsic_call_errors
    ⟨[("llvm.x", 1), ("llvm.y", 2)], [1],
     [((1, (LType.void, [LType.ptr])), [LType.ptr])]⟩
    ⟨"llvm.z", [], 0, LType.void⟩
    ⟨"llvm.x", [LType.int 32], 0, LType.void⟩
    ⟨"llvm.y", [LType.float_], 1, LType.float_⟩
    1 2 (by decide) (by decide) (by decide) (by decide) (by decide)
    (by decide) (by decide) (by decide) (by decide)

/-- A table with no entries, standing for a declarative conversion table
that matches no operation. -/
def emptyTable : OperationM → Option LogicalResult := fun _ => none

/-- C9: an operation matching neither the declarative table nor any
special-case emitter is lowered to `failure`; in general the entry point
returns the declarative table's result when it matches and otherwise the
result of the first matching special-case handler, tried in the source's
fixed priority order. -/
theorem dispatch_unrecognized_fails
    (table : OperationM → Option LogicalResult) (env : CallEnv)
    (st : MDState) (op : OperationM) (opcode : String)
    (h : table (OperationM.generic opcode) = none) :
    (convertOperationImpl table env st (OperationM.generic opcode)).1 =
      LogicalResult.failure ∧
    convertOperationImpl table env st op =
      (match table op with
       | some r => some (r, st)
       | none => firstSome (specialCaseHandlers env st) op).getD
        (LogicalResult.failure, st) := by
  constructor
  · simp [convertOperationImpl, h]
  · cases htab : table op with
    | some r => simp [convertOperationImpl, htab]
    | none =>
      cases op <;>
        simp [convertOperationImpl, htab, specialCaseHandlers, firstSome]

/-- C9 witness: with an empty declarative table, a generic operation fails
and an inline-assembly operation is handled by its special-case emitter. -/
theorem dispatch_unrecognized_fails_witness :
    (convertOperationImpl emptyTable ⟨[]⟩ ⟨[], [], 0⟩
        (OperationM.generic "foo.bar")).1 = LogicalResult.failure ∧
    convertOperationImpl emptyTable ⟨[]⟩ ⟨[], [], 0⟩ (OperationM.inlineAsm 0) =
      (match emptyTable (OperationM.inlineAsm 0) with
       | some r => some (r, (⟨[], [], 0⟩ : MDState))
       | none =>
         firstSome (specialCaseHandlers ⟨[]⟩ ⟨[], [], 0⟩)
           (OperationM.inlineAsm 0)).getD
        (LogicalResult.failure, (⟨[], [], 0⟩ : MDState)) :=
  dispatch_unrecognized_fails emptyTable ⟨[]⟩ ⟨[], [], 0⟩
    (OperationM.inlineAsm 0) "foo.bar" rfl

end LLVMToLLVMIR
